import Mathlib

/-!
Shallow embedding of the telemetry agent's aggregation runtime
(`models.RunningAggregator` with its window logic) and of the
Kubernetes input plugin's fan-out `Gather`, together with theorems
settling the specification claims about them.

Go `time.Time` values are modelled as wall-clock instants in integer
nanoseconds; `time.Duration` values as integers.
-/

namespace Telegraf

/-- Go `Time.Truncate d`: for `d <= 0` the time is returned unchanged
(only the monotonic clock reading, absent from this model, is stripped);
for `d > 0` the time is rounded down to a multiple of `d`. -/
def goTruncate (t d : Int) : Int :=
  if d ≤ 0 then t else t - t % d

/-- One measurement: name, tags, fields, timestamp (ns), plus whether the
metric carries delivery tracking. Field values are abstracted to `Int`. -/
structure Metric where
  name : String
  tags : List (String × String)
  fields : List (String × Int)
  time : Int
  tracking : Bool
deriving DecidableEq, Repr

/-- `metric.FromMetric`: a copy of the metric that does not retain
tracking (source comment in `Add`: "Make a copy of the metric but don't
retain tracking"). Modelled from the spec: the copying itself lives in
the `metric` package, outside the sample slice. -/
def fromMetric (m : Metric) : Metric :=
  { m with tracking := false }

/-- Modelled from the spec: `models.Filter` is outside the sample slice.
`Select` is a tag/field/name match that may fail on a malformed pattern;
`Modify` renames/prunes the name, tags and fields and touches neither the
timestamp nor the tracking state. -/
structure Filter where
  sel : String → List (String × String) → List (String × Int) → Except String Bool
  renameName : String → String
  modifyTags : List (String × String) → List (String × String)
  modifyFields : List (String × Int) → List (String × Int)

def Filter.Select (f : Filter) (m : Metric) : Except String Bool :=
  f.sel m.name m.tags m.fields

def Filter.Modify (f : Filter) (m : Metric) : Metric :=
  { m with
    name := f.renameName m.name
    tags := f.modifyTags m.tags
    fields := f.modifyFields m.fields }

/-- The subset of `AggregatorConfig` the claims exercise. -/
structure AggregatorConfig where
  DropOriginal : Bool
  Period : Int
  Delay : Int
  Grace : Int
  Filter : Filter

/-- `models.RunningAggregator`: configuration, current aggregation window
boundaries, the dropped/filtered observability counters, and the state of
the wrapped aggregation algorithm, abstracted as the list of metrics that
have been handed to its `Add` since the last `Reset`. -/
structure RunningAggregator where
  Config : AggregatorConfig
  periodStart : Int
  periodEnd : Int
  MetricsFiltered : Nat
  MetricsDropped : Nat
  aggMetrics : List Metric

/-- Which exit of `RunningAggregator.Add` was taken. -/
inductive AddOutcome
  | notSelected
  | noFields
  | outsideWindow
  | aggregated
deriving DecidableEq, Repr

structure AddResult where
  state : RunningAggregator
  drop : Bool
  outcome : AddOutcome

/-- The part of `RunningAggregator.Add` after the `Filter.Select` check:
copy without tracking, `Filter.Modify` the copy, drop if no fields remain,
drop if outside `[periodStart - Grace, periodEnd + Delay]`, otherwise hand
to the aggregation algorithm; every one of these exits returns
`Config.DropOriginal`. -/
def RunningAggregator.addSelected (r : RunningAggregator) (m0 : Metric) : AddResult :=
  let m := r.Config.Filter.Modify (fromMetric m0)
  if m.fields.isEmpty then
    ⟨{ r with MetricsFiltered := r.MetricsFiltered + 1 }, r.Config.DropOriginal, .noFields⟩
  else if m.time < r.periodStart - r.Config.Grace ∨ m.time > r.periodEnd + r.Config.Delay then
    ⟨{ r with MetricsDropped := r.MetricsDropped + 1 }, r.Config.DropOriginal, .outsideWindow⟩
  else
    ⟨{ r with aggMetrics := r.aggMetrics ++ [m] }, r.Config.DropOriginal, .aggregated⟩

/-- `RunningAggregator.Add`: on a `Select` error the failure is logged and
processing continues exactly as for a selected metric; `Select` returning
`false` is the only exit that returns `false` unconditionally. -/
def RunningAggregator.Add (r : RunningAggregator) (m : Metric) : AddResult :=
  match r.Config.Filter.Select m with
  | .error _ => r.addSelected m
  | .ok false => ⟨r, false, .notSelected⟩
  | .ok true => r.addSelected m

/-- The clock-discontinuity test in `Push`, as the source writes it:
`nowWall.Before(since.Truncate(-1)) || nowWall.After(until.Truncate(-1))`
with `nowWall = now.Truncate(-1)`. -/
def reanchorCond (since til now : Int) : Bool :=
  goTruncate now (-1) < goTruncate since (-1) || goTruncate now (-1) > goTruncate til (-1)

/-- The window computation in `Push`: intended next window
`[periodEnd, periodEnd + Period)`, re-anchored to
`[now.Truncate(Period), now.Truncate(Period) + Period)` when the
discontinuity test fires. -/
def advanceWindow (periodEnd p now : Int) : Int × Int :=
  let since := periodEnd
  let til := periodEnd + p
  let nowWall := goTruncate now (-1)
  if reanchorCond since til now then
    (goTruncate nowWall p, goTruncate nowWall p + p)
  else
    (since, til)

/-- Observable actions of one `Push` invocation, in program order. -/
inductive PushEvent
  | updateWindow (s u : Int)
  | aggPush (failed : Bool)
  | aggReset
deriving DecidableEq, Repr

/-- `RunningAggregator.Push`: advance the window via `UpdateWindow`, then
the aggregation algorithm's `Push` (whose success is abstracted by the
`failed` oracle — the Go call returns nothing and is followed
unconditionally), then its `Reset`, which clears the accumulated state. -/
def RunningAggregator.Push (r : RunningAggregator) (now : Int) (failed : Bool) :
    RunningAggregator × List PushEvent :=
  let w := advanceWindow r.periodEnd r.Config.Period now
  ({ r with periodStart := w.1, periodEnd := w.2, aggMetrics := [] },
   [PushEvent.updateWindow w.1 w.2, PushEvent.aggPush failed, PushEvent.aggReset])

/-- Modelled from the spec: the window is created at aggregator start
(in the agent, outside the sample slice) with `periodStart = now` and
`periodEnd = now + Period`. -/
def initWindow (r : RunningAggregator) (now : Int) : RunningAggregator :=
  { r with periodStart := now, periodEnd := now + r.Config.Period }

/-- The window invariant: `periodEnd = periodStart + Period`. -/
def windowInv (r : RunningAggregator) : Prop :=
  r.periodEnd = r.periodStart + r.Config.Period

/-- The drop-original policy as the spec states it: a pure function of
the configuration and the filter/window outcome, used to compare against
the value `Add` actually returns. -/
def specDropDecision (cfg : AggregatorConfig) (o : AddOutcome) : Bool :=
  match o with
  | .notSelected => false
  | .noFields => cfg.DropOriginal
  | .outsideWindow => cfg.DropOriginal
  | .aggregated => cfg.DropOriginal

/-- The clock-discontinuity test as the spec's words describe it, for
comparison with `reanchorCond`: both the current time and the interval
boundaries truncated to whole seconds. -/
def reanchorCondSpecSeconds (since til now : Int) : Bool :=
  goTruncate now 1000000000 < goTruncate since 1000000000 ||
    goTruncate now 1000000000 > goTruncate til 1000000000

/-! ### Kubernetes input plugin: fan-out `Gather` -/

/-- One `AddFields` call: measurement name, fields, tags. -/
structure SeriesPoint where
  measurement : String
  fields : List (String × Int)
  tags : List (String × String)
deriving DecidableEq, Repr

/-- The accumulator handed to `Gather`: collected series and the errors
reported through `AddError`. -/
structure Accumulator where
  series : List SeriesPoint
  errors : List String
deriving DecidableEq, Repr

/-- `acc.AddError(err)`: a `nil` error is ignored, any other error is
recorded. -/
def Accumulator.AddError (acc : Accumulator) (e : Option String) : Accumulator :=
  match e with
  | none => acc
  | some s => { acc with errors := acc.errors ++ [s] }

/-- `gatherSummary(baseURL, acc)`: the HTTP fetches and JSON decoding are
abstracted by the `fetch` oracle, which yields either the series the node
produces or the error of the failed request; on success the series are
added to the accumulator and no error is returned. -/
def gatherSummary (fetch : String → Except String (List SeriesPoint))
    (url : String) (acc : Accumulator) : Accumulator × Option String :=
  match fetch url with
  | .error e => (acc, some e)
  | .ok pts => ({ acc with series := acc.series ++ pts }, none)

/-- The dynamic-target branch of `Kubernetes.Gather`: one task per node
URL, each running `acc.AddError(k.gatherSummary(url, acc))`; after all
tasks complete (`wg.Wait()`), `Gather` returns `nil`. The concurrent
tasks are serialized in list order in this model. -/
def Gather (fetch : String → Except String (List SeriesPoint))
    (urls : List String) (acc : Accumulator) : Accumulator × Option String :=
  (urls.foldl
    (fun a url =>
      let r := gatherSummary fetch url a
      r.1.AddError r.2)
    acc,
   none)

/-- The error one target contributes to the accumulator, if any. -/
def fetchErr (fetch : String → Except String (List SeriesPoint)) (u : String) :
    Option String :=
  match fetch u with
  | .error e => some e
  | .ok _ => none

/-- The series one target contributes to the accumulator. -/
def fetchSeries (fetch : String → Except String (List SeriesPoint)) (u : String) :
    List SeriesPoint :=
  match fetch u with
  | .error _ => []
  | .ok pts => pts

/-! ### Sample fixtures used by witnesses and counterexamples -/

/-- A filter that selects everything and modifies nothing. -/
def idFilter : Filter :=
  ⟨fun _ _ _ => .ok true, id, id, id⟩

/-- A filter whose `Select` always fails with a malformed-pattern error. -/
def errFilter : Filter :=
  ⟨fun _ _ _ => .error "bad pattern", id, id, id⟩

def sampleConfig : AggregatorConfig :=
  ⟨true, 10, 0, 0, idFilter⟩

def sampleAgg : RunningAggregator :=
  ⟨sampleConfig, 0, 10, 0, 0, []⟩

def errConfig : AggregatorConfig :=
  ⟨true, 10, 0, 0, errFilter⟩

def errAgg : RunningAggregator :=
  ⟨errConfig, 0, 10, 0, 0, []⟩

def sampleMetric : Metric :=
  ⟨"cpu", [], [("value", 5)], 1, true⟩

/-! ### Helper lemmas -/

theorem goTruncate_neg_one (t : Int) : goTruncate t (-1) = t := by
  simp [goTruncate]

theorem reanchorCond_iff (since til now : Int) :
    reanchorCond since til now = true ↔ now < since ∨ now > til := by
  simp [reanchorCond, goTruncate_neg_one]

theorem add_of_select_ok (r : RunningAggregator) (m : Metric)
    (hsel : r.Config.Filter.Select m = Except.ok true) :
    r.Add m = r.addSelected m := by
  simp only [RunningAggregator.Add, hsel]

theorem addSelected_noFields (r : RunningAggregator) (m0 : Metric)
    (h : (r.Config.Filter.Modify (fromMetric m0)).fields.isEmpty = true) :
    r.addSelected m0 =
      ⟨{ r with MetricsFiltered := r.MetricsFiltered + 1 }, r.Config.DropOriginal,
       AddOutcome.noFields⟩ := by
  simp only [RunningAggregator.addSelected, h, if_true]

theorem addSelected_outside (r : RunningAggregator) (m0 : Metric)
    (hf : (r.Config.Filter.Modify (fromMetric m0)).fields.isEmpty = false)
    (hw : (r.Config.Filter.Modify (fromMetric m0)).time < r.periodStart - r.Config.Grace ∨
      (r.Config.Filter.Modify (fromMetric m0)).time > r.periodEnd + r.Config.Delay) :
    r.addSelected m0 =
      ⟨{ r with MetricsDropped := r.MetricsDropped + 1 }, r.Config.DropOriginal,
       AddOutcome.outsideWindow⟩ := by
  simp only [RunningAggregator.addSelected, hf, Bool.false_eq_true, if_false, if_pos hw]

theorem addSelected_inWindow (r : RunningAggregator) (m0 : Metric)
    (hf : (r.Config.Filter.Modify (fromMetric m0)).fields.isEmpty = false)
    (hw : ¬((r.Config.Filter.Modify (fromMetric m0)).time < r.periodStart - r.Config.Grace ∨
      (r.Config.Filter.Modify (fromMetric m0)).time > r.periodEnd + r.Config.Delay)) :
    r.addSelected m0 =
      ⟨{ r with aggMetrics := r.aggMetrics ++ [r.Config.Filter.Modify (fromMetric m0)] },
       r.Config.DropOriginal, AddOutcome.aggregated⟩ := by
  simp only [RunningAggregator.addSelected, hf, Bool.false_eq_true, if_false, if_neg hw]

/-! ### Claim theorems -/

/-- C1: a metric that passes selection and still has fields after
modification is forwarded to the aggregation algorithm's `Add` if and
only if its timestamp `t` satisfies
`periodStart - grace ≤ t ≤ periodEnd + delay`, with both boundary values
accepted; a metric with a timestamp outside that closed range is not
forwarded and is counted as dropped. -/
theorem add_window_admission (r : RunningAggregator) (m : Metric)
    (hsel : r.Config.Filter.Select m = Except.ok true)
    (hf : (r.Config.Filter.Modify (fromMetric m)).fields.isEmpty = false) :
    ((r.Add m).state.aggMetrics =
        r.aggMetrics ++ [r.Config.Filter.Modify (fromMetric m)] ↔
      r.periodStart - r.Config.Grace ≤ (r.Config.Filter.Modify (fromMetric m)).time ∧
        (r.Config.Filter.Modify (fromMetric m)).time ≤ r.periodEnd + r.Config.Delay) ∧
    (((r.Config.Filter.Modify (fromMetric m)).time < r.periodStart - r.Config.Grace ∨
        (r.Config.Filter.Modify (fromMetric m)).time > r.periodEnd + r.Config.Delay) →
      (r.Add m).state.aggMetrics = r.aggMetrics ∧
        (r.Add m).state.MetricsDropped = r.MetricsDropped + 1 ∧
        (r.Add m).outcome = AddOutcome.outsideWindow) := by
  rw [add_of_select_ok r m hsel]
  by_cases hw : (r.Config.Filter.Modify (fromMetric m)).time < r.periodStart - r.Config.Grace ∨
      (r.Config.Filter.Modify (fromMetric m)).time > r.periodEnd + r.Config.Delay
  · rw [addSelected_outside r m hf hw]
    constructor
    · constructor
      · intro h
        exact absurd (congrArg List.length h) (by simp)
      · intro h
        omega
    · intro _
      exact ⟨rfl, rfl, rfl⟩
  · rw [addSelected_inWindow r m hf hw]
    constructor
    · constructor
      · intro _
        omega
      · intro _
        rfl
    · intro h
      exact absurd h hw

/-- C1 witness: for the sample aggregator with window `[0, 10]`, grace 0
and delay 0, the sample metric at `t = 1` is handed to the aggregation
algorithm. -/
theorem add_window_admission_witness :
    (sampleAgg.Add sampleMetric).state.aggMetrics =
      sampleAgg.aggMetrics ++ [sampleAgg.Config.Filter.Modify (fromMetric sampleMetric)] :=
  (add_window_admission sampleAgg sampleMetric rfl rfl).1.mpr (by decide)

/-- C2: the boolean returned by `Add` equals the pure function
`specDropDecision` of the configuration and the filter/window outcome; in
each of the three outcome cases (no fields left, window rejection, point
accepted) that function returns the configured drop-original policy. -/
theorem add_drop_policy (r : RunningAggregator) (m : Metric) :
    (r.Add m).drop = specDropDecision r.Config (r.Add m).outcome ∧
    specDropDecision r.Config AddOutcome.noFields = r.Config.DropOriginal ∧
    specDropDecision r.Config AddOutcome.outsideWindow = r.Config.DropOriginal ∧
    specDropDecision r.Config AddOutcome.aggregated = r.Config.DropOriginal := by
  refine ⟨?_, rfl, rfl, rfl⟩
  have hsel : (r.addSelected m).drop = specDropDecision r.Config (r.addSelected m).outcome := by
    simp only [RunningAggregator.addSelected]
    split
    · rfl
    · split
      · rfl
      · rfl
  unfold RunningAggregator.Add
  split
  · exact hsel
  · rfl
  · exact hsel

/-- C3: when `now` falls outside the intended next window
`[periodEnd, periodEnd + period]`, the window computation of `Push`
re-anchors in a single step to `[floor(now, period), floor(now, period) +
period)`: the new start is the greatest multiple of `period` not
exceeding `now`, and the new end is the new start plus `period`. -/
theorem push_reanchor_single_step (pe p now : Int) (hp : 0 < p)
    (h : now < pe ∨ now > pe + p) :
    advanceWindow pe p now = (now - now % p, now - now % p + p) ∧
    now - now % p ≤ now ∧ now < now - now % p + p ∧ p ∣ now - now % p := by
  have hmod0 : 0 ≤ now % p := Int.emod_nonneg now (by omega)
  have hmodp : now % p < p := Int.emod_lt_of_pos now hp
  refine ⟨?_, by omega, by omega, ⟨now / p, by rw [Int.emod_def]; ring⟩⟩
  have hcond : reanchorCond pe (pe + p) now = true := (reanchorCond_iff pe (pe + p) now).mpr h
  simp only [advanceWindow, goTruncate_neg_one, hcond, if_true]
  simp only [goTruncate]
  rw [if_neg (show ¬p ≤ 0 by omega)]

/-- C3 witness: for `periodEnd = 100`, `now = 500`, `period = 10` the new
window is `[500, 510)`, reached in one step. -/
theorem push_reanchor_single_step_witness :
    advanceWindow 100 10 500 = (500, 510) := by
  have h := push_reanchor_single_step 100 10 500 (by decide) (Or.inr (by decide))
  rw [h.1]
  decide

/-- C4 counterexample: with `periodEnd = 1000000005` ns,
`period = 1` s and `now = 1000000000` ns, `now` and `periodEnd` lie in
the same whole second — truncated to seconds the test would not fire —
yet the source's test (`Truncate(-1)`, which leaves the wall clock
unchanged) does fire and the window is re-anchored. -/
theorem reanchor_second_truncation_cex :
    reanchorCond 1000000005 2000000005 1000000000 = true ∧
    reanchorCondSpecSeconds 1000000005 2000000005 1000000000 = false ∧
    advanceWindow 1000000005 1000000000 1000000000 ≠ (1000000005, 2000000005) := by
  refine ⟨by decide, by decide, by decide⟩

/-- C4 amended: `Truncate(-1)` strips only the monotonic reading and
leaves the wall clock unchanged, so the clock-discontinuity test of
`Push` compares the current time against `[periodEnd, periodEnd +
period]` at full precision: re-anchoring occurs exactly when `now` falls
strictly outside that closed interval, with no truncation to whole
seconds. -/
theorem reanchor_exact_comparison (pe p now t : Int) :
    goTruncate t (-1) = t ∧
    (reanchorCond pe (pe + p) now = true ↔ now < pe ∨ now > pe + p) :=
  ⟨goTruncate_neg_one t, reanchorCond_iff pe (pe + p) now⟩

/-- C5: every invocation of `Push` performs, in order, the window advance
(`UpdateWindow`), then the aggregation algorithm's `Push`, then its
`Reset` — the `Reset` follows even when the algorithm's push failed — and
the accumulated aggregation state is empty afterwards. -/
theorem push_update_push_reset (r : RunningAggregator) (now : Int) (failed : Bool) :
    (r.Push now failed).2 =
      [PushEvent.updateWindow (advanceWindow r.periodEnd r.Config.Period now).1
          (advanceWindow r.periodEnd r.Config.Period now).2,
       PushEvent.aggPush failed, PushEvent.aggReset] ∧
    (r.Push now failed).1.aggMetrics = [] :=
  ⟨rfl, rfl⟩

/-- C6 counterexample: with a filter whose `Select` errors, the sample
metric (which has fields and lies inside the window) is not treated as
filtered-out: `Add` forwards it to the aggregation algorithm. -/
theorem filter_error_cex :
    errAgg.Config.Filter.Select sampleMetric = Except.error "bad pattern" ∧
    (errAgg.Add sampleMetric).outcome = AddOutcome.aggregated ∧
    (errAgg.Add sampleMetric).state.aggMetrics = [fromMetric sampleMetric] ∧
    (errAgg.Add sampleMetric).state.MetricsFiltered = 0 ∧
    (errAgg.Add sampleMetric).state.MetricsDropped = 0 :=
  ⟨rfl, rfl, rfl, rfl, rfl⟩

/-- C6 amended: when `Filter.Select` returns an error at Add-time, the
error is logged and the point is processed exactly as a selected point —
copied, modified, window-checked and, when fields remain and the
timestamp is admitted, forwarded to the aggregation algorithm's `Add`;
the aggregator continues operating. -/
theorem add_filter_error_proceeds (r : RunningAggregator) (m : Metric) (e : String)
    (hsel : r.Config.Filter.Select m = Except.error e) :
    r.Add m = r.addSelected m := by
  simp only [RunningAggregator.Add, hsel]

/-- C6 amended witness: the erroring filter at the sample metric. -/
theorem add_filter_error_proceeds_witness :
    errAgg.Add sampleMetric = errAgg.addSelected sampleMetric :=
  add_filter_error_proceeds errAgg sampleMetric "bad pattern" rfl

/-- C7: every metric `Add` hands to the aggregation algorithm is a copy
without tracking, and the whole result of `Add` — including the returned
drop decision that drives the original's acknowledgment — is independent
of the original's tracking state. -/
theorem add_untracked_copy (r : RunningAggregator) (m : Metric) (b : Bool) (x : Metric)
    (hx : x ∈ (r.Add m).state.aggMetrics) :
    (x ∈ r.aggMetrics ∨ x.tracking = false) ∧
    r.Add { m with tracking := b } = r.Add m := by
  have hmem : ∀ m0, x ∈ (r.addSelected m0).state.aggMetrics →
      x ∈ r.aggMetrics ∨ x.tracking = false := by
    intro m0 h
    simp only [RunningAggregator.addSelected] at h
    split at h
    · exact Or.inl h
    · split at h
      · exact Or.inl h
      · rcases List.mem_append.mp h with h' | h'
        · exact Or.inl h'
        · right
          rw [List.mem_singleton.mp h']
          rfl
  refine ⟨?_, rfl⟩
  revert hx
  unfold RunningAggregator.Add
  split
  · exact hmem m
  · exact fun h => Or.inl h
  · exact hmem m

/-- C7 witness: the sample metric enters tracked; the copy stored in the
aggregation state is untracked, and flipping the original's tracking
leaves `Add`'s result unchanged. -/
theorem add_untracked_copy_witness :
    (fromMetric sampleMetric ∈ sampleAgg.aggMetrics ∨
      (fromMetric sampleMetric).tracking = false) ∧
    sampleAgg.Add { sampleMetric with tracking := false } = sampleAgg.Add sampleMetric :=
  add_untracked_copy sampleAgg sampleMetric false (fromMetric sampleMetric) (by decide)

/-- C8: the window invariant `periodEnd = periodStart + period` holds
after creation at aggregator start and after the flush-time update of
`Push` (both its branches), and `Add` never moves the window — it is
advanced only by the flush tick. -/
theorem window_invariant_lifecycle (r : RunningAggregator) (now now2 : Int)
    (failed : Bool) (m : Metric) :
    windowInv (initWindow r now) ∧
    (initWindow r now).periodStart = now ∧
    (initWindow r now).periodEnd = now + r.Config.Period ∧
    windowInv (r.Push now2 failed).1 ∧
    (r.Add m).state.periodStart = r.periodStart ∧
    (r.Add m).state.periodEnd = r.periodEnd := by
  have hadv : (advanceWindow r.periodEnd r.Config.Period now2).2 =
      (advanceWindow r.periodEnd r.Config.Period now2).1 + r.Config.Period := by
    simp only [advanceWindow]
    split
    · rfl
    · rfl
  have hframe : ∀ m0, (r.addSelected m0).state.periodStart = r.periodStart ∧
      (r.addSelected m0).state.periodEnd = r.periodEnd := by
    intro m0
    simp only [RunningAggregator.addSelected]
    split
    · exact ⟨rfl, rfl⟩
    · split
      · exact ⟨rfl, rfl⟩
      · exact ⟨rfl, rfl⟩
  have hadd : (r.Add m).state.periodStart = r.periodStart ∧
      (r.Add m).state.periodEnd = r.periodEnd := by
    unfold RunningAggregator.Add
    split
    · exact hframe m
    · exact ⟨rfl, rfl⟩
    · exact hframe m
  have hinit : windowInv (initWindow r now) := by
    simp only [windowInv, initWindow]
  have hpush : windowInv (r.Push now2 failed).1 := by
    simp only [windowInv, RunningAggregator.Push]
    exact hadv
  exact ⟨hinit, rfl, rfl, hpush, hadd.1, hadd.2⟩

theorem gather_fold (fetch : String → Except String (List SeriesPoint))
    (urls : List String) (acc : Accumulator) :
    (Gather fetch urls acc).1.errors = acc.errors ++ urls.filterMap (fetchErr fetch) ∧
    (Gather fetch urls acc).1.series =
      acc.series ++ (urls.map (fetchSeries fetch)).flatten := by
  induction urls generalizing acc with
  | nil => simp [Gather]
  | cons u us ih =>
    have hstep : Gather fetch (u :: us) acc =
        Gather fetch us ((gatherSummary fetch u acc).1.AddError (gatherSummary fetch u acc).2) := by
      simp [Gather]
    rw [hstep]
    rcases hfu : fetch u with e | pts
    · have hacc : (gatherSummary fetch u acc).1.AddError (gatherSummary fetch u acc).2 =
          { acc with errors := acc.errors ++ [e] } := by
        simp [gatherSummary, hfu, Accumulator.AddError]
      rw [hacc]
      rcases ih { acc with errors := acc.errors ++ [e] } with ⟨h1, h2⟩
      refine ⟨?_, ?_⟩
      · rw [h1]
        simp [fetchErr, hfu]
      · rw [h2]
        simp [fetchSeries, hfu]
    · have hacc : (gatherSummary fetch u acc).1.AddError (gatherSummary fetch u acc).2 =
          { acc with series := acc.series ++ pts } := by
        simp [gatherSummary, hfu, Accumulator.AddError]
      rw [hacc]
      rcases ih { acc with series := acc.series ++ pts } with ⟨h1, h2⟩
      refine ⟨?_, ?_⟩
      · rw [h1]
        simp [fetchErr, hfu]
      · rw [h2]
        simp [fetchSeries, hfu]

/-- C9: the fan-out collection cycle processes every target; it returns
success (`nil`) for every set of targets and every combination of
per-target outcomes, each failing target's error is reported
independently through the accumulator's error channel, and every
successful target's series reach the accumulator — a failure never
aborts the contribution of a sibling target. -/
theorem gather_partial_success (fetch : String → Except String (List SeriesPoint))
    (urls : List String) (acc : Accumulator) :
    (Gather fetch urls acc).2 = none ∧
    (Gather fetch urls acc).1.errors = acc.errors ++ urls.filterMap (fetchErr fetch) ∧
    (Gather fetch urls acc).1.series =
      acc.series ++ (urls.map (fetchSeries fetch)).flatten :=
  ⟨rfl, (gather_fold fetch urls acc).1, (gather_fold fetch urls acc).2⟩

end Telegraf
